import Mathlib

/-!
Shallow embedding of `serial.go` (package `serial`): a serial-port session
object with a shared receive buffer, line framing on a configurable EOL byte,
and a pattern-wait primitive.  Bytes are modelled as `Nat`, the receive
buffer (`bytes.Buffer`) as a `List Nat` with its head at the front, and the
external transport (`io.ReadWriteCloser`) as an abstract handle `Option Nat`
(`none` = nil).  Results of external calls (transport write, file read,
`time.ParseDuration`, `openPort`) are supplied as parameters, since they are
outside the repository.
-/

namespace Serial

/-- Errors returned by the session's public operations.  Each constructor
corresponds to a distinct `error` value produced in `serial.go`;
`ioEOF` is Go's `io.EOF`, returned by `bytes.Buffer.ReadByte` on an empty
buffer and by `bytes.Buffer.ReadString` when the delimiter is absent
(the spec's `Empty` / `Incomplete` transient signals). -/
inductive SerialError where
  /-- `fmt.Errorf("Serial port is not open")` -/
  | notOpen
  /-- `fmt.Errorf("\"%s\" is already open", name)` -/
  | alreadyOpen (name : String)
  /-- `errors.New("Invalid parity")` -/
  | invalidParity
  /-- `errors.New("Invalid time out params")` -/
  | invalidTimeout
  /-- `errors.New("Invalid stop bits")` -/
  | invalidStopBits
  /-- `fmt.Errorf("Unable to open port ...")` -/
  | transportOpenFailed
  /-- Go `io.EOF` from the buffer (nothing / no complete line available). -/
  | ioEOF
  /-- `fmt.Errorf("Timeout expired")` -/
  | timeoutExpired
  /-- error propagated from the external transport write -/
  | transportWriteError
  deriving DecidableEq, Repr

/-- The observable fields of Go struct `SerialPort` (`serial.go` lines 61-74).
`port` is the transport handle (`none` = Go nil), `rxOpen` models whether the
`rxChar` channel has been made and not yet closed, `buff` is the contents of
the shared receive buffer `*bytes.Buffer`, `eol` the delimiter byte.  The
`logger` field performs I/O only and carries no session-visible state. -/
structure SerialPort where
  port : Option Nat
  name : String
  baud : Int
  eol : Nat
  rxOpen : Bool
  buff : List Nat
  portIsOpen : Bool
  verbose : Bool
  deriving DecidableEq, Repr

/-- `EOL_DEFAULT byte = '\n'` (serial.go line 16). -/
def EOL_DEFAULT : Nat := 10

/-- `New()` (serial.go lines 89-112): the returned struct sets `eol` to the
default, `Verbose` to true, and builds `buff` as
`bytes.NewBuffer(make([]uint8, 256))` — a buffer whose initial contents are a
256-byte zero-filled slice.  All other fields keep Go zero values
(`nil` port and channel, open flag false).  The log-file handling in `New`
is file-system I/O with no effect on the returned struct's fields. -/
def New : SerialPort :=
  { port := none
    name := ""
    baud := 0
    eol := EOL_DEFAULT
    rxOpen := false
    buff := List.replicate 256 0
    portIsOpen := false
    verbose := true }

/-- `bytes.Buffer.ReadByte`: removes and returns the head byte, or `io.EOF`
when the buffer is empty. -/
def buffReadByte (buff : List Nat) : Except SerialError Nat × List Nat :=
  match buff with
  | [] => (.error .ioEOF, [])
  | b :: rest => (.ok b, rest)

/-- `bytes.Buffer.ReadString(delim)`: reads up to and including the first
occurrence of `delim`.  Returns `(data, rest, errored)`: the bytes consumed,
the remaining buffer, and whether `io.EOF` was hit (delimiter absent — in
that case the whole buffer is consumed and returned alongside the error). -/
def buffReadString (delim : Nat) : List Nat → List Nat × List Nat × Bool
  | [] => ([], [], true)
  | b :: rest =>
    if b = delim then ([b], rest, false)
    else
      let r := buffReadString delim rest
      (b :: r.1, r.2.1, r.2.2)

/-- `removeEOL` (serial.go lines 438-452): copies the line, skipping every
carriage-return byte `'\r'` (13) and every newline byte `'\n'` (10),
wherever they occur. -/
def removeEOL (line : List Nat) : List Nat :=
  line.filter (fun b => !(b == 13 || b == 10))

/-- `SerialPort.Read` (serial.go lines 310-317): if the port is open,
`sp.buff.ReadByte()`; otherwise the `NotOpen` error.  Returns the result and
the updated session. -/
def Read (sp : SerialPort) : Except SerialError Nat × SerialPort :=
  if sp.portIsOpen then
    let r := buffReadByte sp.buff
    (r.1, { sp with buff := r.2 })
  else (.error .notOpen, sp)

/-- `SerialPort.ReadLine` (serial.go lines 324-336): if the port is open,
`sp.buff.ReadString(sp.eol)`; on error the empty string and the error are
returned (the partially-read bytes are discarded), otherwise
`removeEOL(line)`. -/
def ReadLine (sp : SerialPort) : Except SerialError (List Nat) × SerialPort :=
  if sp.portIsOpen then
    let r := buffReadString sp.eol sp.buff
    if r.2.2 then (.error .ioEOF, { sp with buff := r.2.1 })
    else (.ok (removeEOL r.1), { sp with buff := r.2.1 })
  else (.error .notOpen, sp)

/-- `SerialPort.Write` (serial.go lines 228-240): if the port is open the
data goes to `sp.port.Write` (outcome `txResult` supplied by the
environment); otherwise the `NotOpen` error.  The session state is not
changed by `Write`. -/
def Write (sp : SerialPort) (data : List Nat)
    (txResult : Except SerialError Nat) : Except SerialError Nat × SerialPort :=
  if sp.portIsOpen then (txResult, sp)
  else (.error .notOpen, sp)

/-- `SerialPort.Available` (serial.go lines 383-385): `sp.buff.Len()`, with
no open-state check and no error path. -/
def Available (sp : SerialPort) : Nat :=
  sp.buff.length

/-- `SerialPort.EOL` (serial.go lines 388-390): set the delimiter byte. -/
def EOL (sp : SerialPort) (c : Nat) : SerialPort :=
  { sp with eol := c }

/-- `SerialPort.Close` (serial.go lines 217-225): when open, clears the open
flag, closes the `rxChar` channel and closes the transport (whose result
`portCloseResult` it returns); when already closed, does nothing and
returns nil. -/
def Close (sp : SerialPort) (portCloseResult : Except SerialError Unit) :
    Except SerialError Unit × SerialPort :=
  if sp.portIsOpen then
    (portCloseResult, { sp with portIsOpen := false, rxOpen := false })
  else (.ok (), sp)

/-- The valid arguments of the `parity` switch in `Open`
(serial.go lines 137-152); the empty string skips the switch. -/
def validParity (parity : String) : Bool :=
  parity = "" || parity = "N" || parity = "O" || parity = "E" ||
  parity = "M" || parity = "S"

/-- The valid arguments of the `stopbit` switch in `Open`
(serial.go lines 162-173); the empty string skips the switch. -/
def validStopbit (stopbit : String) : Bool :=
  stopbit = "" || stopbit = "1" || stopbit = "1.5" || stopbit = "2"

/-- `SerialPort.Open` (serial.go lines 121-214).  Checks `portIsOpen` first
(`AlreadyOpen`), then validates parity, timeout (`parseOk` stands for
`time.ParseDuration` succeeding; it is consulted only when `timeout` is
non-empty) and stop bits; the `databits` switch has no error branch
(unrecognised values fall back to the default size).  `openPortResult`
stands for the external `openPort` call: `none` is failure.  On success the
session records name, baud and the transport handle, flips the open flag,
resets the receive buffer to empty, and makes the `rxChar` channel; on every
failure path the session is untouched. -/
def Open (sp : SerialPort) (name : String) (baud : Int)
    (timeout parity stopbit : String)
    (parseOk : Bool) (openPortResult : Option Nat) :
    Except SerialError Unit × SerialPort :=
  if sp.portIsOpen then (.error (.alreadyOpen name), sp)
  else if !(validParity parity) then (.error .invalidParity, sp)
  else if timeout ≠ "" && !parseOk then (.error .invalidTimeout, sp)
  else if !(validStopbit stopbit) then (.error .invalidStopBits, sp)
  else
    match openPortResult with
    | none => (.error .transportOpenFailed, sp)
    | some h =>
      (.ok (), { sp with
        name := name
        baud := baud
        port := some h
        portIsOpen := true
        buff := []
        rxOpen := true })

/-- A Go slice expression `file[a:b]` of a byte slice: in range when
`a ≤ b ≤ len(file)`, otherwise a runtime panic (`none`). -/
def goSlice (file : List Nat) (a b : Nat) : Option (List Nat) :=
  if a ≤ b ∧ b ≤ file.length then some ((file.take b).drop a) else none

/-- The chunk loop of `SendFile` (serial.go lines 287-303), chunk size
`q = 512`: while `sentBytes <= fileSize`, slice the next chunk
(`file[sentBytes : sentBytes+512]` when more than 512 bytes remain,
otherwise `file[sentBytes:]`), record it, and advance `sentBytes` by 512.
`fuel` bounds the recursion; `file.length + 1` is always enough. -/
def chunkLoop : Nat → List Nat → Nat → List (List Nat)
  | 0, _, _ => []
  | fuel + 1, file, sentBytes =>
    if sentBytes ≤ file.length then
      let tailSlice := file.drop sentBytes
      let data := if tailSlice.length > 512 then tailSlice.take 512 else tailSlice
      data :: chunkLoop fuel file (sentBytes + 512)
    else []

/-- The successive chunks `SendFile` passes to `sp.port.Write` for a file
with contents `file`. -/
def sendFileChunks (file : List Nat) : List (List Nat) :=
  chunkLoop (file.length + 1) file 0

/-- The chunk loop of `SendFile` with every slice expression modelled by
`goSlice`, so an out-of-range slice surfaces as `none`: each iteration
evaluates `file[sentBytes:]` (for the length test and the short-chunk case)
and, when more than 512 bytes remain, `file[sentBytes : sentBytes+512]`. -/
def chunkLoopChecked : Nat → List Nat → Nat → Option (List (List Nat))
  | 0, _, _ => some []
  | fuel + 1, file, sentBytes =>
    if sentBytes ≤ file.length then
      match goSlice file sentBytes file.length with
      | none => none
      | some tailSlice =>
        match
          (if tailSlice.length > 512 then goSlice file sentBytes (sentBytes + 512)
           else some tailSlice) with
        | none => none
        | some data =>
          match chunkLoopChecked fuel file (sentBytes + 512) with
          | none => none
          | some rest => some (data :: rest)
    else some []

/-- `SendFile`'s chunk sequence with slice bounds checked: `none` exactly
when some iteration performs an out-of-range slice. -/
def sendFileChunksChecked (file : List Nat) : Option (List (List Nat)) :=
  chunkLoopChecked (file.length + 1) file 0

/-- Outcome of `SendFile` (serial.go lines 273-307). -/
inductive SendFileResult where
  /-- all chunk writes succeeded -/
  | ok
  /-- `ioutil.ReadFile` failed; its error is returned -/
  | fileReadError
  /-- a chunk write failed; the transport error is returned -/
  | writeError
  /-- `sp.port` is nil (session never opened): the first `sp.port.Write`
  dereferences a nil interface and panics -/
  | nilPortPanic
  deriving DecidableEq, Repr

/-- The write loop of `SendFile`: writes each chunk in turn, returning the
transport error on the first failed write (`writeOk` is the environment's
verdict per chunk). -/
def sendChunkLoop (writeOk : List Nat → Bool) : List (List Nat) → SendFileResult
  | [] => .ok
  | c :: cs => if writeOk c then sendChunkLoop writeOk cs else .writeError

/-- `SerialPort.SendFile` (serial.go lines 273-307).  There is no
`portIsOpen` check: the file is read (`fileContents`, `none` = read error)
and the chunks are written through `sp.port` directly.  The loop always
runs at least one iteration (`0 ≤ fileSize`), so with a nil transport the
first write panics. -/
def SendFile (sp : SerialPort) (fileContents : Option (List Nat))
    (writeOk : List Nat → Bool) : SendFileResult :=
  match fileContents with
  | none => .fileReadError
  | some file =>
    match sp.port with
    | none => .nilPortPanic
    | some _ => sendChunkLoop writeOk (sendFileChunks file)

/-- Outcome of `WaitForRegexTimeout` (serial.go lines 339-380). -/
inductive WaitOutcome where
  /-- a line matched before the deadline; the first match is returned -/
  | matched (s : List Nat)
  /-- the deadline elapsed: `fmt.Errorf("Timeout expired")` -/
  | timeoutExpired
  /-- the session is not open: `fmt.Errorf("Serial port is not open")` -/
  | notOpen
  /-- `regexp.MustCompile(exp)` panicked on an uncompilable pattern -/
  | panicked
  deriving DecidableEq, Repr

/-- `SerialPort.WaitForRegexTimeout` (serial.go lines 339-380).  The open
check comes first; then the pattern is compiled with `regexp.MustCompile`,
which panics when `regexp.Compile` fails (`compile exp = none` models an
uncompilable pattern — the regexp engine is the Go standard library,
abstracted as the parameter `compile`).  The polling goroutine racing the
deadline timer is timing-dependent and is abstracted as `raceResult`: the
first match published before the deadline, or `none` when the deadline
fires first. -/
def WaitForRegexTimeout (compile : String → Option Unit) (sp : SerialPort)
    (exp : String) (raceResult : Option (List Nat)) : WaitOutcome :=
  if sp.portIsOpen then
    match compile exp with
    | none => .panicked
    | some _ =>
      match raceResult with
      | some data => .matched data
      | none => .timeoutExpired
  else .notOpen

/-- The actions of `Open`'s success path, in source order
(serial.go lines 201-212). -/
inductive OpenAction where
  | setName | setBaud | setPort | setOpenFlag | resetBuffer | makeRxChannel
  | spawnReaderLoop | spawnLineFramer | setLoggerTag | logOpenMessage
  deriving DecidableEq, Repr

/-- `Open`'s success path performs its actions in this order: the field
assignments and the buffer reset (line 205) come before the two `go`
statements that spawn the reader loop and the line framer
(lines 209-210). -/
def openSuccessActions : List OpenAction :=
  [.setName, .setBaud, .setPort, .setOpenFlag, .resetBuffer, .makeRxChannel,
   .spawnReaderLoop, .spawnLineFramer, .setLoggerTag, .logOpenMessage]

/-! ## Theorems -/

/-- `Close` on a closed session returns nil and changes nothing. -/
theorem Close_of_not_open (sp : SerialPort) (r : Except SerialError Unit)
    (h : sp.portIsOpen = false) : Close sp r = (.ok (), sp) := by
  simp [Close, h]

/-- After any `Close`, the open flag is cleared. -/
theorem Close_snd_not_open (sp : SerialPort) (r : Except SerialError Unit) :
    (Close sp r).2.portIsOpen = false := by
  by_cases hsp : sp.portIsOpen <;> simp [Close, hsp]

/-- Claim C1 (amended): calling `Read`, `ReadLine`, `Write` or
`WaitForRegexTimeout` while the session state is Closed fails with the
`NotOpen` error; `SendFile`, by contrast, performs no open-state check
(see the counterexample). -/
theorem closed_ops_fail_notOpen (sp : SerialPort) (h : sp.portIsOpen = false) :
    (Read sp).1 = .error .notOpen ∧
    (ReadLine sp).1 = .error .notOpen ∧
    (∀ data tx, (Write sp data tx).1 = .error .notOpen) ∧
    (∀ compile exp race, WaitForRegexTimeout compile sp exp race = .notOpen) := by
  refine ⟨?_, ?_, ?_, ?_⟩ <;>
    (intros; simp [Read, ReadLine, Write, WaitForRegexTimeout, h])

/-- Witness for `closed_ops_fail_notOpen`: the freshly created session is
closed, and all four operations fail with `NotOpen` on it. -/
theorem closed_ops_fail_notOpen_witness :
    New.portIsOpen = false ∧
    ((Read New).1 = .error .notOpen ∧
     (ReadLine New).1 = .error .notOpen ∧
     (∀ data tx, (Write New data tx).1 = .error .notOpen) ∧
     (∀ compile exp race, WaitForRegexTimeout compile New exp race = .notOpen)) :=
  ⟨rfl, closed_ops_fail_notOpen New rfl⟩

/-- Claim C1 counterexample: `SendFile` on a Closed session does not fail
with `NotOpen`.  On the never-opened session `New` (nil transport) the
first chunk write panics; on a closed session that still holds a transport
handle the operation is simply performed. -/
theorem sendFile_closed_no_notOpen_cex :
    New.portIsOpen = false ∧
    SendFile New (some [1, 2, 3]) (fun _ => true) = .nilPortPanic ∧
    ({ New with port := some 0 } : SerialPort).portIsOpen = false ∧
    SendFile { New with port := some 0 } (some [1, 2, 3]) (fun _ => true) = .ok ∧
    SendFileResult.nilPortPanic ≠ SendFileResult.writeError ∧
    SendFileResult.ok ≠ SendFileResult.writeError := by
  refine ⟨rfl, rfl, rfl, ?_, by decide, by decide⟩
  rfl

/-- Claim C2 counterexample: with the session Open and a pattern the regexp
engine cannot compile (for example `"("`; the environment `compile` returns
`none` for it), `WaitForRegexTimeout` panics in `regexp.MustCompile` — it
crashes instead of returning an `InvalidPattern` error. -/
theorem waitForRegex_invalid_pattern_cex :
    ({ New with portIsOpen := true } : SerialPort).portIsOpen = true ∧
    WaitForRegexTimeout (fun _ => none) { New with portIsOpen := true } "(" none
      = .panicked ∧
    WaitOutcome.panicked ≠ WaitOutcome.notOpen ∧
    WaitOutcome.panicked ≠ WaitOutcome.timeoutExpired := by
  refine ⟨rfl, rfl, by decide, by decide⟩

/-- Claim C2 (amended): for every uncompilable pattern, `WaitForRegexTimeout`
called on an Open session panics (`regexp.MustCompile`) rather than
returning an error or succeeding. -/
theorem waitForRegex_invalid_pattern_panics (compile : String → Option Unit)
    (sp : SerialPort) (exp : String) (race : Option (List Nat))
    (hopen : sp.portIsOpen = true) (hbad : compile exp = none) :
    WaitForRegexTimeout compile sp exp race = .panicked := by
  simp [WaitForRegexTimeout, hopen, hbad]

/-- Witness for `waitForRegex_invalid_pattern_panics` at the Open session
and the pattern `"("`. -/
theorem waitForRegex_invalid_pattern_panics_witness :
    ({ New with portIsOpen := true } : SerialPort).portIsOpen = true ∧
    (fun _ : String => (none : Option Unit)) "(" = none ∧
    WaitForRegexTimeout (fun _ => none) { New with portIsOpen := true } "(" none
      = .panicked :=
  ⟨rfl, rfl,
    waitForRegex_invalid_pattern_panics (fun _ => none)
      { New with portIsOpen := true } "(" none rfl rfl⟩

/-- Claim C6: `Open` on a session already Open fails with the `AlreadyOpen`
error and leaves the session — lifecycle flag, transport handle, receive
buffer, delimiter and every other field — unchanged. -/
theorem open_already_open (sp : SerialPort) (name : String) (baud : Int)
    (timeout parity stopbit : String) (parseOk : Bool) (res : Option Nat)
    (h : sp.portIsOpen = true) :
    Open sp name baud timeout parity stopbit parseOk res
      = (.error (.alreadyOpen name), sp) := by
  simp [Open, h]

/-- Witness for `open_already_open` on a concrete Open session. -/
theorem open_already_open_witness :
    ({ New with portIsOpen := true } : SerialPort).portIsOpen = true ∧
    Open { New with portIsOpen := true } "COM1" 9600 "1m" "N" "1" true (some 7)
      = (.error (.alreadyOpen "COM1"), { New with portIsOpen := true }) :=
  ⟨rfl,
    open_already_open { New with portIsOpen := true } "COM1" 9600 "1m" "N" "1"
      true (some 7) rfl⟩

/-- Claim C7: `Close` on an already-Closed session is a no-op returning
success with the state unchanged, and a second consecutive `Close` after any
`Close` is always such a no-op — `Close` is idempotent. -/
theorem close_on_closed_noop (sp : SerialPort) (r : Except SerialError Unit)
    (h : sp.portIsOpen = false) :
    Close sp r = (.ok (), sp) ∧
    (∀ sp2 : SerialPort, ∀ r1 r2,
      Close (Close sp2 r1).2 r2 = (.ok (), (Close sp2 r1).2)) := by
  exact ⟨Close_of_not_open sp r h,
    fun sp2 r1 r2 => Close_of_not_open _ r2 (Close_snd_not_open sp2 r1)⟩

/-- Witness for `close_on_closed_noop`: the fresh session is closed and
closing it twice is a no-op success both times. -/
theorem close_on_closed_noop_witness :
    New.portIsOpen = false ∧
    (Close New (.ok ()) = (.ok (), New) ∧
     (∀ sp2 : SerialPort, ∀ r1 r2,
       Close (Close sp2 r1).2 r2 = (.ok (), (Close sp2 r1).2))) :=
  ⟨rfl, close_on_closed_noop New (.ok ()) rfl⟩

/-- `ReadString` on a buffer whose first delimiter occurrence follows the
delimiter-free prefix `f`: consumes `f ++ [e]`, leaves `rest`, no error. -/
theorem buffReadString_append (e : Nat) (f rest : List Nat) (hf : e ∉ f) :
    buffReadString e (f ++ e :: rest) = (f ++ [e], rest, false) := by
  induction f with
  | nil => simp [buffReadString]
  | cons b f ih =>
    have hb : b ≠ e := fun h => hf (h ▸ List.mem_cons_self b f)
    have hf' : e ∉ f := fun h => hf (List.mem_cons_of_mem b h)
    simp [buffReadString, hb, ih hf']

/-- `ReadString` on a buffer without the delimiter: consumes everything and
reports `io.EOF`. -/
theorem buffReadString_no_delim (e : Nat) (buff : List Nat) (h : e ∉ buff) :
    buffReadString e buff = (buff, [], true) := by
  induction buff with
  | nil => simp [buffReadString]
  | cons b bs ih =>
    have hb : b ≠ e := fun hbe => h (hbe ▸ List.mem_cons_self b bs)
    have h' : e ∉ bs := fun hm => h (List.mem_cons_of_mem b hm)
    simp [buffReadString, hb, ih h']

/-- One `ReadLine` on an open session whose buffer starts with the
delimiter-free fragment `f` followed by the delimiter: returns
`removeEOL (f ++ [eol])` and consumes through the delimiter. -/
theorem ReadLine_delim (sp : SerialPort) (f rest : List Nat)
    (hopen : sp.portIsOpen = true) (hbuff : sp.buff = f ++ sp.eol :: rest)
    (hf : sp.eol ∉ f) :
    ReadLine sp = (.ok (removeEOL (f ++ [sp.eol])), { sp with buff := rest }) := by
  simp [ReadLine, hopen, hbuff, buffReadString_append sp.eol f rest hf]

/-- One `ReadLine` on an open session whose buffer holds no delimiter:
`io.EOF` (the transient `Incomplete` signal), and the buffer is drained. -/
theorem ReadLine_no_delim (sp : SerialPort) (hopen : sp.portIsOpen = true)
    (h : sp.eol ∉ sp.buff) :
    ReadLine sp = (.error .ioEOF, { sp with buff := [] }) := by
  simp [ReadLine, hopen, buffReadString_no_delim sp.eol sp.buff h]

/-- Claim C3 (amended): on an Open session whose buffer starts with a
delimiter-free fragment `f` followed by the configured delimiter, `readLine`
consumes the fragment and the delimiter from the buffer and returns
`removeEOL (f ++ [eol])` — the text with every carriage-return (13) and
newline (10) byte removed, wherever they occur; a delimiter that is neither
CR nor LF is consumed from the buffer but stays in the returned text. -/
theorem readLine_strips_all_crlf (sp : SerialPort) (f rest : List Nat)
    (hopen : sp.portIsOpen = true) (hbuff : sp.buff = f ++ sp.eol :: rest)
    (hf : sp.eol ∉ f) :
    ReadLine sp = (.ok (removeEOL (f ++ [sp.eol])), { sp with buff := rest }) ∧
    (sp.eol ≠ 13 → sp.eol ≠ 10 →
      removeEOL (f ++ [sp.eol]) = removeEOL f ++ [sp.eol]) := by
  refine ⟨ReadLine_delim sp f rest hopen hbuff hf, fun h13 h10 => ?_⟩
  simp [removeEOL, List.filter_append, h13, h10]

/-- Witness for `readLine_strips_all_crlf`: buffer `"AT\r\n"`, default
delimiter: the returned text is `"AT"` and the buffer is emptied. -/
theorem readLine_strips_all_crlf_witness :
    (ReadLine { New with portIsOpen := true, buff := [65, 84, 13, 10] }).1
      = .ok [65, 84] ∧
    (ReadLine { New with portIsOpen := true, buff := [65, 84, 13, 10] }).2.buff
      = [] := by
  have h := readLine_strips_all_crlf
    { New with portIsOpen := true, buff := [65, 84, 13, 10] }
    [65, 84, 13] [] rfl rfl (by decide)
  rw [h.1]
  exact ⟨rfl, rfl⟩

/-- Claim C3 counterexample: delimiter `';'` (59) configured via `EOL`,
buffered line `"hi;"`: `readLine` returns `"hi;"` — the delimiter byte is
not removed from the returned text, contradicting the claim's `"hi"`. -/
theorem readLine_keeps_non_crlf_delim_cex :
    (ReadLine (EOL { New with portIsOpen := true, buff := [104, 105, 59] } 59)).1
      = .ok [104, 105, 59] ∧
    (ReadLine (EOL { New with portIsOpen := true, buff := [104, 105, 59] } 59)).2.buff
      = [] ∧
    ([104, 105, 59] : List Nat) ≠ [104, 105] := by
  refine ⟨rfl, rfl, by decide⟩

/-- Iterated `ReadLine`: the list of the first `n` results and the final
session state. -/
def readLines : Nat → SerialPort → List (Except SerialError (List Nat)) × SerialPort
  | 0, sp => ([], sp)
  | n + 1, sp =>
    let r := ReadLine sp
    let rs := readLines n r.2
    (r.1 :: rs.1, rs.2)

/-- A buffer holding the fragments `fs` each terminated by the delimiter
`e`. -/
def delimJoin (e : Nat) (fs : List (List Nat)) : List Nat :=
  (fs.map (fun f => f ++ [e])).flatten

/-- Claim C5 (amended): for a buffer holding exactly `k` delimiter bytes —
the delimiter-free fragments `fs` (with `k = fs.length`) each followed by
the delimiter, then a delimiter-free remainder — `k` calls to `readLine`
return the `k` fragments in order, each as `removeEOL (f ++ [eol])` (every
CR and LF byte removed, not only the delimiter and a CR preceding it), and
the `(k+1)`-th call fails with `io.EOF` (the `Incomplete` signal). -/
theorem readLine_k_fragments (fs : List (List Nat)) (rest : List Nat)
    (sp : SerialPort) (hopen : sp.portIsOpen = true)
    (hbuff : sp.buff = delimJoin sp.eol fs ++ rest)
    (hfs : ∀ f ∈ fs, sp.eol ∉ f) (hrest : sp.eol ∉ rest) :
    (readLines fs.length sp).1
      = fs.map (fun f => .ok (removeEOL (f ++ [sp.eol]))) ∧
    (ReadLine (readLines fs.length sp).2).1 = .error .ioEOF := by
  induction fs generalizing sp with
  | nil =>
    refine ⟨rfl, ?_⟩
    have : ReadLine sp = (.error .ioEOF, { sp with buff := [] }) := by
      apply ReadLine_no_delim sp hopen
      rw [hbuff]
      simpa [delimJoin] using hrest
    simp [readLines, this]
  | cons f fs ih =>
    have hf : sp.eol ∉ f := hfs f (List.mem_cons_self f fs)
    have hstep : ReadLine sp =
        (.ok (removeEOL (f ++ [sp.eol])),
         { sp with buff := delimJoin sp.eol fs ++ rest }) := by
      apply ReadLine_delim sp f (delimJoin sp.eol fs ++ rest) hopen
      · rw [hbuff]
        simp [delimJoin]
      · exact hf
    have ih' := ih { sp with buff := delimJoin sp.eol fs ++ rest } hopen rfl
      (fun g hg => hfs g (List.mem_cons_of_mem f hg)) hrest
    constructor
    · show (ReadLine sp).1 :: (readLines fs.length (ReadLine sp).2).1 = _
      rw [hstep]
      exact congrArg _ ih'.1
    · show (ReadLine (readLines fs.length (ReadLine sp).2).2).1 = _
      rw [hstep]
      exact ih'.2

/-- Witness for `readLine_k_fragments`: buffer `"OK\na\nb"` (two
delimiters), default delimiter: two calls return `"OK"` and `"a"`, the
third fails with `io.EOF`. -/
theorem readLine_k_fragments_witness :
    (readLines 2 { New with portIsOpen := true, buff := [79, 75, 10, 97, 10, 98] }).1
      = [.ok [79, 75], .ok [97]] ∧
    (ReadLine (readLines 2 { New with portIsOpen := true, buff := [79, 75, 10, 97, 10, 98] }).2).1
      = .error .ioEOF := by
  have h := readLine_k_fragments [[79, 75], [97]] [98]
    { New with portIsOpen := true, buff := [79, 75, 10, 97, 10, 98] }
    rfl rfl (by decide) (by decide)
  exact ⟨h.1, h.2⟩

/-- The returned text the claim describes for a fragment `f` (the bytes
before the delimiter): the delimiter is excluded and a carriage-return byte
immediately preceding it is removed; nothing else is touched.  This
definition follows the claim's words, for comparison with `removeEOL`. -/
def claimedLineText (f : List Nat) : List Nat :=
  if f.getLast? = some 13 then f.dropLast else f

/-- Claim C5 counterexample: buffer `"a\rb\n"` (one delimiter), default
delimiter: `readLine` returns `"ab"` — the interior carriage return is also
removed — while the claim's stripping rule yields `"a\rb"`. -/
theorem readLine_interior_cr_cex :
    (ReadLine { New with portIsOpen := true, buff := [97, 13, 98, 10] }).1
      = .ok [97, 98] ∧
    claimedLineText [97, 13, 98] = [97, 13, 98] ∧
    ([97, 98] : List Nat) ≠ [97, 13, 98] := by
  refine ⟨rfl, by decide, by decide⟩

/-- Characterisation of `Open`'s success path: the result is `ok` exactly
when the session was closed, the validations passed and the external
`openPort` returned a handle. -/
theorem Open_fst_ok_iff (sp : SerialPort) (name : String) (baud : Int)
    (timeout parity stopbit : String) (parseOk : Bool) (res : Option Nat) :
    (Open sp name baud timeout parity stopbit parseOk res).1 = .ok () ↔
    (sp.portIsOpen = false ∧ validParity parity = true ∧
     (timeout ≠ "" && !parseOk) = false ∧ validStopbit stopbit = true ∧
     ∃ hh, res = some hh) := by
  unfold Open
  by_cases h1 : sp.portIsOpen = true <;>
  by_cases h2 : validParity parity = true <;>
  by_cases h3 : validStopbit stopbit = true <;>
  by_cases ht : timeout = "" <;>
  by_cases hp : parseOk = true <;>
  cases res <;>
  simp_all

/-- The state produced by `Open`'s success path: name, baud and transport
handle recorded, open flag set, receive buffer reset to empty, `rxChar`
channel made; delimiter and the rest untouched. -/
theorem Open_success_eq (sp : SerialPort) (name : String) (baud : Int)
    (timeout parity stopbit : String) (parseOk : Bool) (hh : Nat)
    (h1 : sp.portIsOpen = false) (h2 : validParity parity = true)
    (h3 : (timeout ≠ "" && !parseOk) = false) (h4 : validStopbit stopbit = true) :
    Open sp name baud timeout parity stopbit parseOk (some hh) =
      (.ok (), { sp with
        name := name
        baud := baud
        port := some hh
        portIsOpen := true
        buff := []
        rxOpen := true }) := by
  unfold Open
  simp [h1, h2, h3, h4]
  intro hne
  simpa [hne] using h3

/-- Claim C8: a successful `Open` resets the shared receive buffer to empty
— discarding stale bytes of a prior session, so `Available` is 0 on the
resulting state — and on the success path the buffer reset (line 205)
precedes the spawning of the reader-loop and line-framer tasks
(lines 209-210). -/
theorem open_success_resets_buffer (sp : SerialPort) (name : String)
    (baud : Int) (timeout parity stopbit : String) (parseOk : Bool)
    (res : Option Nat)
    (hsucc : (Open sp name baud timeout parity stopbit parseOk res).1 = .ok ()) :
    (Open sp name baud timeout parity stopbit parseOk res).2.buff = [] ∧
    Available (Open sp name baud timeout parity stopbit parseOk res).2 = 0 ∧
    openSuccessActions.indexOf OpenAction.resetBuffer <
      openSuccessActions.indexOf OpenAction.spawnReaderLoop ∧
    openSuccessActions.indexOf OpenAction.resetBuffer <
      openSuccessActions.indexOf OpenAction.spawnLineFramer := by
  obtain ⟨h1, h2, h3, h4, hh, rfl⟩ :=
    (Open_fst_ok_iff sp name baud timeout parity stopbit parseOk res).mp hsucc
  rw [Open_success_eq sp name baud timeout parity stopbit parseOk hh h1 h2 h3 h4]
  exact ⟨rfl, rfl, by decide, by decide⟩

/-- Witness for `open_success_resets_buffer`: opening the fresh session
(whose buffer holds 256 stale zero bytes) with valid arguments and a
successful transport open yields `Available = 0`. -/
theorem open_success_resets_buffer_witness :
    (Open New "COM1" 9600 "1m" "N" "1" true (some 7)).1 = .ok () ∧
    ((Open New "COM1" 9600 "1m" "N" "1" true (some 7)).2.buff = [] ∧
     Available (Open New "COM1" 9600 "1m" "N" "1" true (some 7)).2 = 0 ∧
     openSuccessActions.indexOf OpenAction.resetBuffer <
       openSuccessActions.indexOf OpenAction.spawnReaderLoop ∧
     openSuccessActions.indexOf OpenAction.resetBuffer <
       openSuccessActions.indexOf OpenAction.spawnLineFramer) :=
  ⟨rfl, open_success_resets_buffer New "COM1" 9600 "1m" "N" "1" true (some 7) rfl⟩

/-- Once `sentBytes` exceeds the file size the chunk loop stops. -/
theorem chunkLoop_of_gt (fuel : Nat) (file : List Nat) (sent : Nat)
    (h : ¬ sent ≤ file.length) : chunkLoop fuel file sent = [] := by
  cases fuel with
  | zero => rfl
  | succ fuel => simp [chunkLoop, h]

/-- Unfolding of one iteration of the chunk loop. -/
theorem chunkLoop_succ (fuel : Nat) (file : List Nat) (sent : Nat)
    (hs : sent ≤ file.length) :
    chunkLoop (fuel + 1) file sent =
      (if (file.drop sent).length > 512 then (file.drop sent).take 512
       else file.drop sent) :: chunkLoop fuel file (sent + 512) := by
  simp [chunkLoop, hs]

/-- With enough fuel, the chunks concatenate to the unsent part of the
file. -/
theorem chunkLoop_flatten (fuel : Nat) : ∀ (file : List Nat) (sent : Nat),
    file.length + 1 ≤ fuel * 512 + sent →
    (chunkLoop fuel file sent).flatten = file.drop sent := by
  induction fuel with
  | zero =>
    intro file sent h
    simp only [chunkLoop, List.flatten_nil]
    exact (List.drop_eq_nil_of_le (by omega)).symm
  | succ fuel ih =>
    intro file sent h
    by_cases hs : sent ≤ file.length
    · rw [chunkLoop_succ fuel file sent hs, List.flatten_cons,
        ih file (sent + 512) (by omega)]
      by_cases hlong : (file.drop sent).length > 512
      · rw [if_pos hlong]
        have hdd : file.drop (sent + 512) = (file.drop sent).drop 512 := by
          rw [List.drop_drop]
        rw [hdd, List.take_append_drop]
      · rw [if_neg hlong]
        rw [List.length_drop] at hlong
        rw [List.drop_eq_nil_of_le (by omega : file.length ≤ sent + 512),
          List.append_nil]
    · rw [chunkLoop_of_gt _ _ _ hs]
      simp only [List.flatten_nil]
      exact (List.drop_eq_nil_of_le (by omega)).symm

/-- With enough fuel: the chunk list ends in exactly one zero-length chunk
when 512 divides the number of unsent bytes (the loop's non-strict bound
runs one extra iteration), and contains no zero-length chunk otherwise. -/
theorem chunkLoop_last_empty (fuel : Nat) : ∀ (file : List Nat) (sent : Nat),
    file.length + 1 ≤ fuel * 512 + sent → sent ≤ file.length →
    (512 ∣ (file.length - sent) →
       ∃ cs, chunkLoop fuel file sent = cs ++ [[]] ∧ ∀ c ∈ cs, c ≠ []) ∧
    (¬ 512 ∣ (file.length - sent) →
       ∀ c ∈ chunkLoop fuel file sent, c ≠ []) := by
  induction fuel with
  | zero => intro file sent h hs; omega
  | succ fuel ih =>
    intro file sent h hs
    rw [chunkLoop_succ fuel file sent hs]
    have hdlen : (file.drop sent).length = file.length - sent :=
      List.length_drop sent file
    by_cases hzero : file.length - sent = 0
    · -- final extra iteration: zero bytes remain, the chunk is empty
      have hdrop : file.drop sent = [] := by
        apply List.eq_nil_of_length_eq_zero
        omega
      have hrest : chunkLoop fuel file (sent + 512) = [] :=
        chunkLoop_of_gt fuel file (sent + 512) (by omega)
      constructor
      · intro _
        exact ⟨[], by simp [hdrop, hrest], by simp⟩
      · intro hnd
        exact absurd (hzero ▸ dvd_zero 512) hnd
    · by_cases hlt : file.length - sent < 512
      · -- final partial chunk, fewer than 512 bytes: loop stops after it
        have hlong : ¬ (file.drop sent).length > 512 := by omega
        have hrest : chunkLoop fuel file (sent + 512) = [] :=
          chunkLoop_of_gt fuel file (sent + 512) (by omega)
        rw [if_neg hlong, hrest]
        constructor
        · intro hd
          have := Nat.le_of_dvd (by omega) hd
          omega
        · intro _ c hc
          have hc' : c = file.drop sent := by simpa using hc
          rw [hc']
          intro hnil
          rw [hnil] at hdlen
          simp at hdlen
          omega
      · -- at least 512 bytes remain: a full chunk, then recurse
        have hs' : sent + 512 ≤ file.length := by omega
        have h' : file.length + 1 ≤ fuel * 512 + (sent + 512) := by omega
        have ihr := ih file (sent + 512) h' hs'
        have hrlen : file.length - (sent + 512) = file.length - sent - 512 := by
          omega
        have hdata : ∀ d, d = (if (file.drop sent).length > 512
            then (file.drop sent).take 512 else file.drop sent) → d ≠ [] := by
          intro d hd hnil
          rw [hnil] at hd
          by_cases hlong : (file.drop sent).length > 512
          · rw [if_pos hlong] at hd
            have := congrArg List.length hd
            simp at this
            omega
          · rw [if_neg hlong] at hd
            have := congrArg List.length hd
            simp [hdlen] at this
            omega
        constructor
        · intro hd
          have hd' : 512 ∣ (file.length - (sent + 512)) := by
            rw [hrlen]
            exact Nat.dvd_sub' hd (dvd_refl 512)
          obtain ⟨cs, hcs, hne⟩ := ihr.1 hd'
          refine ⟨(if (file.drop sent).length > 512
            then (file.drop sent).take 512 else file.drop sent) :: cs, ?_, ?_⟩
          · rw [hcs, List.cons_append]
          · intro c hc
            rcases List.mem_cons.mp hc with hcd | hcm
            · exact hcd ▸ hdata _ rfl
            · exact hne c hcm
        · intro hnd
          have hnd' : ¬ 512 ∣ (file.length - (sent + 512)) := by
            rw [hrlen]
            intro hdv
            apply hnd
            have : file.length - sent = (file.length - sent - 512) + 512 := by
              omega
            rw [this]
            exact Nat.dvd_add hdv (dvd_refl 512)
          intro c hc
          rcases List.mem_cons.mp hc with hcd | hcm
          · exact hcd ▸ hdata _ rfl
          · exact ihr.2 hnd' c hcm

/-- `file[sentBytes:]` is in range whenever the loop condition
`sentBytes <= fileSize` holds. -/
theorem goSlice_tail (file : List Nat) (sent : Nat) (hs : sent ≤ file.length) :
    goSlice file sent file.length = some (file.drop sent) := by
  simp [goSlice, hs, List.take_length]

/-- `file[sentBytes : sentBytes+512]` is in range whenever at least 512
bytes remain, and equals the 512-byte chunk. -/
theorem goSlice_chunk (file : List Nat) (sent : Nat)
    (hs : sent + 512 ≤ file.length) :
    goSlice file sent (sent + 512) = some ((file.drop sent).take 512) := by
  have hcond : sent ≤ sent + 512 ∧ sent + 512 ≤ file.length := ⟨by omega, hs⟩
  rw [goSlice, if_pos hcond, List.drop_take, Nat.add_sub_cancel_left]

/-- The bounds-checked chunk loop never hits an out-of-range slice: it
computes exactly the chunks of the unchecked loop. -/
theorem chunkLoopChecked_eq (fuel : Nat) : ∀ (file : List Nat) (sent : Nat),
    chunkLoopChecked fuel file sent = some (chunkLoop fuel file sent) := by
  induction fuel with
  | zero => intro file sent; rfl
  | succ fuel ih =>
    intro file sent
    by_cases hs : sent ≤ file.length
    · by_cases hlong : (file.drop sent).length > 512
      · have hlt : 512 < file.length - sent := by
          rw [List.length_drop] at hlong
          omega
        have h512 : sent + 512 ≤ file.length := by omega
        simp [chunkLoopChecked, chunkLoop, hs, goSlice_tail file sent hs,
          goSlice_chunk file sent h512, ih, List.length_drop, hlt]
      · have hnlt : ¬ 512 < file.length - sent := by
          rw [List.length_drop] at hlong
          omega
        simp [chunkLoopChecked, chunkLoop, hs, goSlice_tail file sent hs,
          ih, List.length_drop, hnlt]
    · simp [chunkLoopChecked, chunkLoop, hs]

/-- Claim C4 counterexample: there is no file on which `SendFile`'s
chunk-accounting loop performs an out-of-range slice — with every slice
expression bounds-checked, no file contents make the loop fail. -/
theorem sendFile_no_out_of_range_slice_cex :
    ¬ ∃ file : List Nat, sendFileChunksChecked file = none := by
  rintro ⟨file, h⟩
  rw [sendFileChunksChecked, chunkLoopChecked_eq] at h
  exact Option.noConfusion h

/-- Claim C4 (amended): for every file, every slice the chunk-accounting
loop performs is in range (the checked loop returns the chunk list); the
non-strict bound `sentBytes <= fileSize` instead shows up as one extra
zero-length chunk written when the file size is a multiple of 512. -/
theorem sendFile_slices_in_range (file : List Nat) :
    sendFileChunksChecked file = some (sendFileChunks file) ∧
    (512 ∣ file.length → (sendFileChunks file).getLast? = some []) := by
  constructor
  · exact chunkLoopChecked_eq (file.length + 1) file 0
  · intro hd
    obtain ⟨cs, hcs, -⟩ :=
      (chunkLoop_last_empty (file.length + 1) file 0 (by omega)
        (by omega)).1 (by simpa using hd)
    rw [sendFileChunks, hcs]
    simp

/-- Witness for `sendFile_slices_in_range` on a 512-byte file: all slices
in range and the chunk list ends with the zero-length chunk. -/
theorem sendFile_slices_in_range_witness :
    sendFileChunksChecked (List.replicate 512 7)
      = some (sendFileChunks (List.replicate 512 7)) ∧
    (sendFileChunks (List.replicate 512 7)).getLast? = some [] :=
  ⟨(sendFile_slices_in_range (List.replicate 512 7)).1,
   (sendFile_slices_in_range (List.replicate 512 7)).2
     (by rw [List.length_replicate])⟩

/-- Claim C10: the chunks `SendFile` writes concatenate to exactly the
file's contents in order; when the size is not a multiple of 512 no chunk
is empty, and when it is a multiple of 512 (the empty file included) the
chunk list is the full contents in non-empty chunks followed by exactly one
additional zero-length write. -/
theorem sendFile_chunks_cover_file (file : List Nat) :
    (sendFileChunks file).flatten = file ∧
    (¬ (512 ∣ file.length) → ∀ c ∈ sendFileChunks file, c ≠ []) ∧
    (512 ∣ file.length → ∃ cs, sendFileChunks file = cs ++ [[]] ∧
      cs.flatten = file ∧ ∀ c ∈ cs, c ≠ []) := by
  have hjoin : (sendFileChunks file).flatten = file := by
    rw [sendFileChunks, chunkLoop_flatten (file.length + 1) file 0 (by omega)]
    exact List.drop_zero file
  have hstruct := chunkLoop_last_empty (file.length + 1) file 0 (by omega)
    (by omega)
  refine ⟨hjoin, fun hnd => ?_, fun hd => ?_⟩
  · intro c hc
    exact hstruct.2 (by simpa using hnd) c (by simpa [sendFileChunks] using hc)
  · obtain ⟨cs, hcs, hne⟩ := hstruct.1 (by simpa using hd)
    rw [sendFileChunks] at hjoin ⊢
    refine ⟨cs, hcs, ?_, hne⟩
    rw [hcs] at hjoin
    simpa using hjoin

/-- Witness for `sendFile_chunks_cover_file`: a 512-byte file ends with the
extra zero-length write; a 3-byte file has no empty chunk. -/
theorem sendFile_chunks_cover_file_witness :
    (sendFileChunks (List.replicate 512 7)).flatten = List.replicate 512 7 ∧
    (∃ cs, sendFileChunks (List.replicate 512 7) = cs ++ [[]] ∧
      cs.flatten = List.replicate 512 7 ∧ ∀ c ∈ cs, c ≠ []) ∧
    (∀ c ∈ sendFileChunks [1, 2, 3], c ≠ []) :=
  ⟨(sendFile_chunks_cover_file (List.replicate 512 7)).1,
   (sendFile_chunks_cover_file (List.replicate 512 7)).2.2
     (by rw [List.length_replicate]),
   (sendFile_chunks_cover_file [1, 2, 3]).2.1 (by decide)⟩

/-- Claim C9: `Available` checks no open state and has no error path — it is
the buffer length in every session state, unchanged by flipping the
lifecycle flag — and on a session freshly built by `New` it returns 256,
because `New` constructs the buffer over a 256-byte zero-filled slice. -/
theorem available_fresh_session_256 :
    Available New = 256 ∧
    (∀ sp : SerialPort, Available sp = sp.buff.length) ∧
    (∀ sp : SerialPort,
      Available { sp with portIsOpen := !sp.portIsOpen } = Available sp) := by
  refine ⟨?_, fun sp => rfl, fun sp => rfl⟩
  show (List.replicate 256 0).length = 256
  rw [List.length_replicate]

end Serial
